import Mathlib

/-!
Verification of the pod binding storage (`pkg/registry/pod/etcd`): the
binding protocol (`BindingREST.Create`, `setPodHostAndAnnotations`,
`assignPod`), the status sub-resource (`StatusREST.Update`) and their error
translation, embedded shallowly. The versioned store, the key function and
the error interpreters live outside the translated file and are modelled
from the specification where noted.
-/

deriving instance DecidableEq for Except

/-- A workload record (`api.Pod`), restricted to the fields the binding and
status protocols read or write: the name, the desired-assignment field
`Spec.Host`, the observed-assignment field `Status.Host`, and the annotation
mapping (`none` models a Go `nil` map, distinct from an empty map). -/
structure Pod where
  name : String
  specHost : String
  statusHost : String
  annotations : Option (List (String × String))
deriving DecidableEq

/-- A binding request (`api.Binding`): the pod name, the target kind and
name (`binding.Target`), and the annotations to merge. -/
structure Binding where
  name : String
  targetKind : String
  targetName : String
  annotations : List (String × String)
deriving DecidableEq

/-- Recognized domain errors (`*errors.StatusError`): validation failure
(`errors.NewInvalid`, with the offending field named), not-found
(`errors.NewNotFound`), conflict (`errors.NewConflict`, with the wrapped
message), and the key-derivation failure of the record accessor. -/
inductive StatusError where
  | invalid (kind name field reason : String)
  | notFound (kind name : String)
  | conflict (kind name msg : String)
  | invalidIdentifier (reason : String)
deriving DecidableEq

/-- Errors flowing out of a store call before translation: a raw store
not-found, a raw store compare-and-swap conflict (retries exhausted), a
transient infrastructure failure such as a timeout, a plain formatted error
(`fmt.Errorf`), or an already-recognized domain error. -/
inductive BindErr where
  | storeNotFound
  | storeTestFailed
  | storeTimeout
  | raw (msg : String)
  | status (e : StatusError)
deriving DecidableEq

/-- The human-readable message carried by an untranslated error, used when
`errors.NewConflict` wraps it. -/
def BindErr.message : BindErr → String
  | .storeNotFound => "key not found"
  | .storeTestFailed => "compare failed"
  | .storeTimeout => "request timed out"
  | .raw m => m
  | .status _ => "status error"

/-- Whether an error is already a recognized domain error
(the `err.(*errors.StatusError)` type assertion in `assignPod`). -/
def BindErr.isStatus : BindErr → Bool
  | .status _ => true
  | _ => false

/-- Whether a domain error is a not-found error. -/
def StatusError.isNotFound : StatusError → Bool
  | .notFound _ _ => true
  | _ => false

/-- Whether a domain error is a conflict error. -/
def StatusError.isConflict : StatusError → Bool
  | .conflict _ _ _ => true
  | _ => false

/-- The versioned store holding the workload records, keyed by the storage
key; the association list carries at most one binding per key. -/
abbrev Store := List (String × Pod)

/-- Read the record stored at a key. -/
def storeLookup : Store → String → Option Pod
  | [], _ => none
  | (a, p) :: s, k => if a = k then some p else storeLookup s k

/-- Drop any binding for a key. -/
def storeRemove : Store → String → Store
  | [], _ => []
  | (a, p) :: s, k => if a = k then storeRemove s k else (a, p) :: storeRemove s k

/-- Write the record stored at a key. -/
def storeInsert (s : Store) (k : String) (p : Pod) : Store :=
  (k, p) :: storeRemove s k

/-- Go map lookup on the association-list model of a string map. -/
def mapLookup : List (String × String) → String → Option String
  | [], _ => none
  | (a, v) :: m, k => if a = k then some v else mapLookup m k

/-- Drop any binding for a key in the association-list model. -/
def mapRemove : List (String × String) → String → List (String × String)
  | [], _ => []
  | (a, v) :: m, k => if a = k then mapRemove m k else (a, v) :: mapRemove m k

/-- Go map assignment `m[k] = v` on the association-list model: the binding
for `k` is replaced. -/
def mapInsert (m : List (String × String)) (k v : String) : List (String × String) :=
  (k, v) :: mapRemove m k

/-- The merge loop `for k, v := range annotations { pod.Annotations[k] = v }`
of `setPodHostAndAnnotations`: each entry of `news` is assigned into `old`,
existing keys overwritten, new keys added. -/
def mergeAnnotations (old news : List (String × String)) : List (String × String) :=
  news.foldl (fun m kv => mapInsert m kv.1 kv.2) old

/-- Modelled from the spec: `recordKey(scope, name)` of the RecordAccessor
(`etcdgeneric.NamespaceKeyFunc`, not under the translated sources) derives
the storage key for one record and fails with `InvalidIdentifier` if `name`
is empty or contains a character illegal for the key scheme (the key
separator). -/
def recordKey (scope name : String) : Except BindErr String :=
  if name = "" then
    .error (.status (.invalidIdentifier "name parameter required"))
  else if name.data.contains '/' then
    .error (.status (.invalidIdentifier "name parameter invalid"))
  else
    .ok (scope ++ "/" ++ name)

/-- Modelled from the spec: the store's atomic update-if-unchanged
(`EtcdHelper.AtomicUpdate` with `ignoreNotFound = false`, not under the
translated sources). The store's version check total-orders the writes, so
one call applies the caller-supplied mutation function atomically to the
current record: a missing key fails with the raw store not-found error, a
mutation-function rejection aborts the attempt without writing, and
otherwise the mutated record is written back. Version races with unrelated
writers are retried internally and are invisible in this linearized
model. -/
def atomicUpdate (s : Store) (key : String) (tryUpdate : Pod → Except BindErr Pod) :
    Except BindErr Pod × Store :=
  match storeLookup s key with
  | none => (.error .storeNotFound, s)
  | some p =>
    match tryUpdate p with
    | .error e => (.error e, s)
    | .ok p2 => (.ok p2, storeInsert s key p2)

/-- The rejection message built by the mutation function of
`setPodHostAndAnnotations`:
`fmt.Errorf("pod %v is already assigned to host %q or %q", pod.Name, pod.Spec.Host, pod.Status.Host)`. -/
def rejectMsg (p : Pod) : String :=
  "pod " ++ p.name ++ " is already assigned to host \"" ++ p.specHost ++
    "\" or \"" ++ p.statusHost ++ "\""

/-- The mutation closure passed to the atomic update by
`setPodHostAndAnnotations`: reject unless both host fields still equal
`oldMachine`; otherwise set both host fields to `machine`, initialize the
annotation map when it is nil, and merge the request annotations in. -/
def setHostFn (oldMachine machine : String) (anns : List (String × String)) (pod : Pod) :
    Except BindErr Pod :=
  if pod.specHost ≠ oldMachine ∨ pod.statusHost ≠ oldMachine then
    .error (.raw (rejectMsg pod))
  else
    .ok { pod with
          specHost := machine
          statusHost := machine
          annotations := some (mergeAnnotations (pod.annotations.getD []) anns) }

/-- `BindingREST.setPodHostAndAnnotations`: derive the record key, then run
the atomic update with the host-setting mutation closure. -/
def setPodHostAndAnnotations (s : Store) (scope podID oldMachine machine : String)
    (anns : List (String × String)) : Except BindErr Pod × Store :=
  match recordKey scope podID with
  | .error e => (.error e, s)
  | .ok key => atomicUpdate s key (setHostFn oldMachine machine anns)

/-- Modelled from the spec where it leaves the translated file: the error
translation of `assignPod` (lines applying `etcderr.InterpretGetError`,
`etcderr.InterpretUpdateError`, then wrapping). The interpreters, not under
the translated sources, turn a raw store not-found into `NotFound` and a raw
store update conflict into `Conflict`, passing everything else through. -/
def interpretGetError (e : BindErr) (kind name : String) : BindErr :=
  match e with
  | .storeNotFound => .status (.notFound kind name)
  | _ => e

/-- Modelled from the spec: the update-conflict interpreter
(`etcderr.InterpretUpdateError`, not under the translated sources). -/
def interpretUpdateError (e : BindErr) (kind name : String) : BindErr :=
  match e with
  | .storeTestFailed => .status (.conflict kind name e.message)
  | _ => e

/-- The error translation performed by `assignPod` on a failed assignment:
interpret as a get error, then as an update error, and wrap anything that is
still not a recognized domain error as `errors.NewConflict("binding", podID, err)`. -/
def translateAssignErr (e : BindErr) (podID : String) : StatusError :=
  match interpretUpdateError (interpretGetError e "pod" podID) "pod" podID with
  | .status se => se
  | other => .conflict "binding" podID other.message

/-- `BindingREST.assignPod`: assign the pod to the machine through
`setPodHostAndAnnotations` with expected prior host `""`, translating any
failure. -/
def assignPod (s : Store) (scope podID machine : String)
    (anns : List (String × String)) : Option StatusError × Store :=
  match setPodHostAndAnnotations s scope podID "" machine anns with
  | (.ok _, s2) => (none, s2)
  | (.error e, s2) => (some (translateAssignErr e podID), s2)

/-- The success acknowledgement `&api.Status{Status: api.StatusSuccess}`. -/
inductive CreateResult where
  | success
deriving DecidableEq

/-- `BindingREST.Create`: validate the target kind and target name, then
assign; the returned object `out` is set to the success acknowledgement
after `assignPod` regardless of its error, exactly as the named returns of
the source do. -/
def BindingREST.Create (s : Store) (scope : String) (b : Binding) :
    (Option CreateResult × Option StatusError) × Store :=
  if b.targetKind ≠ "" ∧ (b.targetKind ≠ "Node" ∧ b.targetKind ≠ "Minion") then
    ((none, some (.invalid "binding" b.name "to.kind" "must be empty, Node, or Minion")), s)
  else if b.targetName = "" then
    ((none, some (.invalid "binding" b.name "to.name" "required value")), s)
  else
    let r := assignPod s scope b.name b.targetName b.annotations
    ((some .success, r.1), r.2)

/-- The record produced by a winning bind: both host fields set to the
target and the request annotations merged in. -/
def boundPod (p : Pod) (b : Binding) : Pod :=
  { p with
    specHost := b.targetName
    statusHost := b.targetName
    annotations := some (mergeAnnotations (p.annotations.getD []) b.annotations) }

/-- A serialization of N concurrent binding requests: the store's version
check total-orders them, so their effect is that of running
`BindingREST.Create` once per request in the serialization order. Returns
the per-request errors (`none` = success) and the final store. -/
def runBinds (scope : String) : Store → List Binding → List (Option StatusError) × Store
  | s, [] => ([], s)
  | s, b :: bs =>
    let r := BindingREST.Create s scope b
    let rest := runBinds scope r.2 bs
    (r.1.2 :: rest.1, rest.2)

/-- Modelled from the spec: the status sub-resource's update policy
(`pod.StatusStrategy`, not under the translated sources) prepares the
incoming payload by copying the spec fields from the existing record, so
only status fields change. -/
def statusPrepareForUpdate (existing payload : Pod) : Pod :=
  { payload with specHost := existing.specHost }

/-- Modelled from the spec: `StatusREST.Update` delegates to the generic
store update (not under the translated sources) configured with the
status-only policy: derive the key, read the existing record (missing
record fails with `NotFound`), apply the policy, write back. -/
def StatusREST.Update (s : Store) (scope : String) (payload : Pod) :
    Except StatusError Pod × Store :=
  match recordKey scope payload.name with
  | .error e => (.error (translateAssignErr e payload.name), s)
  | .ok key =>
    match storeLookup s key with
    | none => (.error (.notFound "pod" payload.name), s)
    | some old =>
      let merged := statusPrepareForUpdate old payload
      (.ok merged, storeInsert s key merged)

/-! ### Lemmas about the store and the annotation-map model -/

theorem storeLookup_remove_ne (s : Store) (a k : String) (h : ¬ a = k) :
    storeLookup (storeRemove s a) k = storeLookup s k := by
  induction s with
  | nil => rfl
  | cons hd tl ih =>
    cases hd with
    | mk x p =>
      by_cases hx : x = a
      · have hxk : ¬ x = k := fun hc => h (hx ▸ hc)
        rw [storeRemove, if_pos hx, ih, storeLookup, if_neg hxk]
      · rw [storeRemove, if_neg hx, storeLookup, storeLookup]
        by_cases hxk : x = k
        · rw [if_pos hxk, if_pos hxk]
        · rw [if_neg hxk, if_neg hxk, ih]

theorem storeLookup_insert (s : Store) (k : String) (p : Pod) :
    storeLookup (storeInsert s k p) k = some p := by
  rw [storeInsert, storeLookup, if_pos rfl]

theorem mapLookup_remove_ne (m : List (String × String)) (a k : String) (h : ¬ a = k) :
    mapLookup (mapRemove m a) k = mapLookup m k := by
  induction m with
  | nil => rfl
  | cons hd tl ih =>
    cases hd with
    | mk x v =>
      by_cases hx : x = a
      · have hxk : ¬ x = k := fun hc => h (hx ▸ hc)
        rw [mapRemove, if_pos hx, ih, mapLookup, if_neg hxk]
      · rw [mapRemove, if_neg hx, mapLookup, mapLookup]
        by_cases hxk : x = k
        · rw [if_pos hxk, if_pos hxk]
        · rw [if_neg hxk, if_neg hxk, ih]

theorem mapLookup_insert (m : List (String × String)) (a v k : String) :
    mapLookup (mapInsert m a v) k = if a = k then some v else mapLookup m k := by
  by_cases h : a = k
  · rw [mapInsert, mapLookup, if_pos h, if_pos h]
  · rw [mapInsert, mapLookup, if_neg h, if_neg h]
    exact mapLookup_remove_ne m a k h

theorem mapLookup_eq_none_of_not_mem (m : List (String × String)) (k : String)
    (h : k ∉ m.map Prod.fst) : mapLookup m k = none := by
  induction m with
  | nil => rfl
  | cons hd tl ih =>
    simp only [List.map_cons, List.mem_cons] at h
    push_neg at h
    cases hd with
    | mk x v =>
      rw [mapLookup, if_neg (fun hc => h.1 hc.symm)]
      exact ih h.2

theorem mapLookup_merge_of_none (old news : List (String × String)) (k : String)
    (h : mapLookup news k = none) :
    mapLookup (mergeAnnotations old news) k = mapLookup old k := by
  induction news generalizing old with
  | nil => rfl
  | cons hd tl ih =>
    cases hd with
    | mk a v =>
      rw [mapLookup] at h
      by_cases hak : a = k
      · rw [if_pos hak] at h
        exact absurd h (by simp)
      · rw [if_neg hak] at h
        show mapLookup (mergeAnnotations (mapInsert old a v) tl) k = mapLookup old k
        rw [ih (mapInsert old a v) h, mapLookup_insert, if_neg hak]

theorem mapLookup_merge_of_some (old news : List (String × String)) (k v : String)
    (hnd : (news.map Prod.fst).Nodup) (h : mapLookup news k = some v) :
    mapLookup (mergeAnnotations old news) k = some v := by
  induction news generalizing old with
  | nil => exact absurd h (by simp [mapLookup])
  | cons hd tl ih =>
    cases hd with
    | mk a w =>
      simp only [List.map_cons, List.nodup_cons] at hnd
      rw [mapLookup] at h
      by_cases hak : a = k
      · rw [if_pos hak] at h
        have htl : mapLookup tl k = none := by
          apply mapLookup_eq_none_of_not_mem
          rw [← hak]
          exact hnd.1
        show mapLookup (mergeAnnotations (mapInsert old a w) tl) k = some v
        rw [mapLookup_merge_of_none _ _ _ htl, mapLookup_insert, if_pos hak, h]
      · rw [if_neg hak] at h
        exact ih (mapInsert old a w) hnd.2 h

/-! ### Lemmas about one binding attempt -/

theorem Create_unassigned (s : Store) (scope k : String) (b : Binding) (p : Pod)
    (hkind : ¬(b.targetKind ≠ "" ∧ (b.targetKind ≠ "Node" ∧ b.targetKind ≠ "Minion")))
    (hname : b.targetName ≠ "")
    (hkey : recordKey scope b.name = .ok k)
    (hlook : storeLookup s k = some p)
    (hfree : p.specHost = "" ∧ p.statusHost = "") :
    BindingREST.Create s scope b = ((some .success, none), storeInsert s k (boundPod p b)) := by
  rw [BindingREST.Create, if_neg hkind, if_neg hname]
  simp only [assignPod, setPodHostAndAnnotations, hkey, atomicUpdate, hlook, setHostFn,
    hfree.1, hfree.2, ne_eq, not_true_eq_false, or_self, if_false, boundPod]

theorem Create_assigned (s : Store) (scope k : String) (b : Binding) (p : Pod)
    (hkind : ¬(b.targetKind ≠ "" ∧ (b.targetKind ≠ "Node" ∧ b.targetKind ≠ "Minion")))
    (hname : b.targetName ≠ "")
    (hkey : recordKey scope b.name = .ok k)
    (hlook : storeLookup s k = some p)
    (htaken : p.specHost ≠ "" ∨ p.statusHost ≠ "") :
    BindingREST.Create s scope b =
      ((some .success, some (.conflict "binding" b.name (rejectMsg p))), s) := by
  rw [BindingREST.Create, if_neg hkind, if_neg hname]
  simp only [assignPod, setPodHostAndAnnotations, hkey, atomicUpdate, hlook, setHostFn,
    if_pos htaken, translateAssignErr, interpretGetError, interpretUpdateError, BindErr.message]

theorem runBinds_assigned (scope k : String) (p : Pod) (s : Store) (bs : List Binding)
    (hlook : storeLookup s k = some p)
    (htaken : p.specHost ≠ "" ∨ p.statusHost ≠ "")
    (hall : ∀ b ∈ bs, ¬(b.targetKind ≠ "" ∧ (b.targetKind ≠ "Node" ∧ b.targetKind ≠ "Minion")) ∧
      b.targetName ≠ "" ∧ recordKey scope b.name = .ok k) :
    runBinds scope s bs = (bs.map (fun b => some (.conflict "binding" b.name (rejectMsg p))), s) := by
  induction bs with
  | nil => rfl
  | cons b bs ih =>
    have hb := hall b (List.mem_cons_self b bs)
    rw [runBinds]
    rw [Create_assigned s scope k b p hb.1 hb.2.1 hb.2.2 hlook htaken]
    rw [ih (fun b2 hb2 => hall b2 (List.mem_cons_of_mem b hb2))]
    simp

/-! ### Claim theorems -/

/-- C2: for every record whose `Spec.Host` or `Status.Host` is non-empty, a
bind request against it fails with `Conflict` and leaves the store
unchanged, even when the request's `targetName` equals the host already
recorded — binding is first-assignment-only, never idempotent
re-binding. -/
theorem binding_rejects_already_assigned (s : Store) (scope k : String) (b : Binding) (p : Pod)
    (hkind : ¬(b.targetKind ≠ "" ∧ (b.targetKind ≠ "Node" ∧ b.targetKind ≠ "Minion")))
    (hname : b.targetName ≠ "")
    (hkey : recordKey scope b.name = .ok k)
    (hlook : storeLookup s k = some p)
    (htaken : p.specHost ≠ "" ∨ p.statusHost ≠ "") :
    BindingREST.Create s scope b =
      ((some .success, some (.conflict "binding" b.name (rejectMsg p))), s) :=
  Create_assigned s scope k b p hkind hname hkey hlook htaken

/-- C2 witness: a pod already assigned to `n1` rejects a second binding to
the same host `n1` with a conflict, and the store is unchanged. -/
theorem binding_rejects_already_assigned_witness :
    storeLookup [("ns/p1", Pod.mk "p1" "n1" "n1" (some []))] "ns/p1" =
      some (Pod.mk "p1" "n1" "n1" (some [])) ∧
    BindingREST.Create [("ns/p1", Pod.mk "p1" "n1" "n1" (some []))] "ns"
        (Binding.mk "p1" "" "n1" []) =
      ((some .success,
        some (.conflict "binding" "p1" (rejectMsg (Pod.mk "p1" "n1" "n1" (some []))))),
       [("ns/p1", Pod.mk "p1" "n1" "n1" (some []))]) :=
  ⟨by decide,
   binding_rejects_already_assigned _ "ns" "ns/p1" _ _ (by decide) (by decide) (by decide)
     (by decide) (by decide)⟩

/-- C3: for every record with both host fields empty, a valid bind request
with target `H` and annotation map `A` succeeds; the stored record has both
host fields equal to `H`, and its annotation map is the old map with every
key of `A` added or overwritten by `A`, keys absent from `A` keeping their
old values. -/
theorem binding_merges_annotations (s : Store) (scope k : String) (b : Binding) (p : Pod)
    (hkind : ¬(b.targetKind ≠ "" ∧ (b.targetKind ≠ "Node" ∧ b.targetKind ≠ "Minion")))
    (hname : b.targetName ≠ "")
    (hkey : recordKey scope b.name = .ok k)
    (hlook : storeLookup s k = some p)
    (hfree : p.specHost = "" ∧ p.statusHost = "")
    (hnd : (b.annotations.map Prod.fst).Nodup) :
    BindingREST.Create s scope b = ((some .success, none), storeInsert s k (boundPod p b)) ∧
    (boundPod p b).specHost = b.targetName ∧
    (boundPod p b).statusHost = b.targetName ∧
    (boundPod p b).annotations =
      some (mergeAnnotations (p.annotations.getD []) b.annotations) ∧
    ∀ k2, mapLookup (mergeAnnotations (p.annotations.getD []) b.annotations) k2 =
      match mapLookup b.annotations k2 with
      | some v => some v
      | none => mapLookup (p.annotations.getD []) k2 := by
  refine ⟨Create_unassigned s scope k b p hkind hname hkey hlook hfree, rfl, rfl, rfl, ?_⟩
  intro k2
  cases h : mapLookup b.annotations k2 with
  | none => rw [mapLookup_merge_of_none _ _ _ h]
  | some v => rw [mapLookup_merge_of_some _ _ _ _ hnd h]

/-- C3 witness: binding with annotations `a=1` onto a record carrying `b=2`
succeeds and yields a map sending `a` to `1` and `b` to `2`. -/
theorem binding_merges_annotations_witness :
    BindingREST.Create [("ns/p1", Pod.mk "p1" "" "" (some [("b", "2")]))] "ns"
        (Binding.mk "p1" "Node" "n1" [("a", "1")]) =
      ((some .success, none),
       [("ns/p1", Pod.mk "p1" "n1" "n1" (some [("a", "1"), ("b", "2")]))]) ∧
    mapLookup [("a", "1"), ("b", "2")] "a" = some "1" ∧
    mapLookup [("a", "1"), ("b", "2")] "b" = some "2" := by
  have h := binding_merges_annotations [("ns/p1", Pod.mk "p1" "" "" (some [("b", "2")]))]
    "ns" "ns/p1" (Binding.mk "p1" "Node" "n1" [("a", "1")])
    (Pod.mk "p1" "" "" (some [("b", "2")]))
    (by decide) (by decide) (by decide) (by decide) (by decide) (by decide)
  refine ⟨?_, by decide, by decide⟩
  rw [h.1]
  decide

/-- C4: a bind request whose `targetKind` is neither empty nor a recognized
host-kind alias, or whose `targetName` is empty, fails with a validation
error naming the offending field (`to.kind`, or `to.name` when the kind is
acceptable), returns no object, and leaves the store untouched. -/
theorem binding_validation_rejects (s : Store) (scope : String) (b : Binding)
    (hbad : (b.targetKind ≠ "" ∧ (b.targetKind ≠ "Node" ∧ b.targetKind ≠ "Minion")) ∨
      b.targetName = "") :
    ∃ e, BindingREST.Create s scope b = ((none, some e), s) ∧
      ((b.targetKind ≠ "" ∧ (b.targetKind ≠ "Node" ∧ b.targetKind ≠ "Minion")) →
        e = .invalid "binding" b.name "to.kind" "must be empty, Node, or Minion") ∧
      (¬(b.targetKind ≠ "" ∧ (b.targetKind ≠ "Node" ∧ b.targetKind ≠ "Minion")) →
        e = .invalid "binding" b.name "to.name" "required value") := by
  by_cases hk : b.targetKind ≠ "" ∧ (b.targetKind ≠ "Node" ∧ b.targetKind ≠ "Minion")
  · refine ⟨.invalid "binding" b.name "to.kind" "must be empty, Node, or Minion", ?_, ?_, ?_⟩
    · rw [BindingREST.Create, if_pos hk]
    · intro _; rfl
    · intro hc; exact absurd hk hc
  · have hnm : b.targetName = "" := hbad.resolve_left hk
    refine ⟨.invalid "binding" b.name "to.name" "required value", ?_, ?_, ?_⟩
    · rw [BindingREST.Create, if_neg hk, if_pos hnm]
    · intro hc; exact absurd hc hk
    · intro _; rfl

/-- C4 witness: a request with `targetKind = Pod` fails with a validation
error on field `to.kind` and the store is unchanged. -/
theorem binding_validation_rejects_witness :
    BindingREST.Create [("ns/p1", Pod.mk "p1" "" "" none)] "ns"
        (Binding.mk "p1" "Pod" "n1" []) =
      ((none, some (.invalid "binding" "p1" "to.kind" "must be empty, Node, or Minion")),
       [("ns/p1", Pod.mk "p1" "" "" none)]) := by
  have h := binding_validation_rejects [("ns/p1", Pod.mk "p1" "" "" none)] "ns"
    (Binding.mk "p1" "Pod" "n1" []) (Or.inl (by decide))
  obtain ⟨e, heq, hkind, -⟩ := h
  rw [heq, hkind (by decide)]

/-- C1: for any record starting with both host fields empty, N concurrent
binding requests targeting it with different non-empty hosts are
total-ordered by the store's version check; in every serialization exactly
one request succeeds (the first to reach the record), the other N−1 fail
with `Conflict`, and the final record carries the winner's `targetName` in
both host fields. -/
theorem exactly_once_binding (scope k : String) (p : Pod) (s : Store) (bs : List Binding)
    (hlook : storeLookup s k = some p)
    (hfree : p.specHost = "" ∧ p.statusHost = "")
    (hne : bs ≠ [])
    (hdistinct : bs.Pairwise (fun b1 b2 => b1.targetName ≠ b2.targetName))
    (hall : ∀ b ∈ bs, ¬(b.targetKind ≠ "" ∧ (b.targetKind ≠ "Node" ∧ b.targetKind ≠ "Minion")) ∧
      b.targetName ≠ "" ∧ recordKey scope b.name = .ok k) :
    ∃ b0 rest, bs = b0 :: rest ∧
      (runBinds scope s bs).1 =
        none :: rest.map (fun b => some (.conflict "binding" b.name (rejectMsg (boundPod p b0)))) ∧
      (runBinds scope s bs).1.countP (fun e => e.isNone) = 1 ∧
      storeLookup (runBinds scope s bs).2 k = some (boundPod p b0) ∧
      (boundPod p b0).specHost = b0.targetName ∧
      (boundPod p b0).statusHost = b0.targetName := by
  cases bs with
  | nil => exact absurd rfl hne
  | cons b0 rest =>
    refine ⟨b0, rest, rfl, ?_⟩
    have hb0 := hall b0 (List.mem_cons_self b0 rest)
    have hcreate := Create_unassigned s scope k b0 p hb0.1 hb0.2.1 hb0.2.2 hlook hfree
    have hlook2 : storeLookup (storeInsert s k (boundPod p b0)) k = some (boundPod p b0) :=
      storeLookup_insert s k (boundPod p b0)
    have htaken : (boundPod p b0).specHost ≠ "" ∨ (boundPod p b0).statusHost ≠ "" :=
      Or.inl hb0.2.1
    have hrest := runBinds_assigned scope k (boundPod p b0) (storeInsert s k (boundPod p b0))
      rest hlook2 htaken (fun b2 hb2 => hall b2 (List.mem_cons_of_mem b0 hb2))
    have hrun : runBinds scope s (b0 :: rest) =
        (none :: rest.map (fun b => some (.conflict "binding" b.name
          (rejectMsg (boundPod p b0)))), storeInsert s k (boundPod p b0)) := by
      rw [runBinds]
      rw [hcreate]
      simp only
      rw [hrest]
    refine ⟨by rw [hrun], ?_, by rw [hrun]; exact hlook2, rfl, rfl⟩
    rw [hrun]
    simp only [List.countP_cons, Option.isNone_none, if_pos rfl, List.countP_map]
    have hzero : rest.countP ((fun e => e.isNone) ∘
        (fun b => some (StatusError.conflict "binding" b.name (rejectMsg (boundPod p b0))))) = 0 := by
      apply List.countP_eq_zero.mpr
      intro a ha
      simp [Function.comp]
    rw [hzero]
    simp

/-- C1 witness: three concurrent requests for hosts `n1`, `n2`, `n3` in this
serialization order produce one success and two conflicts, and the record
finishes on host `n1`. -/
theorem exactly_once_binding_witness :
    (runBinds "ns" [("ns/p1", Pod.mk "p1" "" "" none)]
        [Binding.mk "p1" "" "n1" [], Binding.mk "p1" "" "n2" [], Binding.mk "p1" "" "n3" []]).1 =
      none :: [Binding.mk "p1" "" "n2" [], Binding.mk "p1" "" "n3" []].map
        (fun b => some (.conflict "binding" b.name
          (rejectMsg (boundPod (Pod.mk "p1" "" "" none) (Binding.mk "p1" "" "n1" []))))) ∧
    (runBinds "ns" [("ns/p1", Pod.mk "p1" "" "" none)]
        [Binding.mk "p1" "" "n1" [], Binding.mk "p1" "" "n2" [], Binding.mk "p1" "" "n3" []]).1.countP
        (fun e => e.isNone) = 1 ∧
    storeLookup (runBinds "ns" [("ns/p1", Pod.mk "p1" "" "" none)]
        [Binding.mk "p1" "" "n1" [], Binding.mk "p1" "" "n2" [], Binding.mk "p1" "" "n3" []]).2
        "ns/p1" =
      some (boundPod (Pod.mk "p1" "" "" none) (Binding.mk "p1" "" "n1" [])) := by
  have h := exactly_once_binding "ns" "ns/p1" (Pod.mk "p1" "" "" none)
    [("ns/p1", Pod.mk "p1" "" "" none)]
    [Binding.mk "p1" "" "n1" [], Binding.mk "p1" "" "n2" [], Binding.mk "p1" "" "n3" []]
    (by decide) (by decide) (by decide) (by decide) (by decide)
  obtain ⟨b0, rest, heq, houts, hcount, hfinal, -, -⟩ := h
  have hb0 : b0 = Binding.mk "p1" "" "n1" [] := by
    injection heq with h1 h2
    exact h1.symm
  have hrest : rest = [Binding.mk "p1" "" "n2" [], Binding.mk "p1" "" "n3" []] := by
    injection heq with h1 h2
    exact h2.symm
  subst hb0
  subst hrest
  exact ⟨houts, hcount, hfinal⟩

/-- C5 counterexample: a bind whose storage-key derivation fails (empty pod
name) does not fail with `NotFound`: the key error itself (an
`InvalidIdentifier` domain error) is returned. -/
theorem key_failure_not_notfound_cex :
    BindingREST.Create [] "ns" (Binding.mk "" "" "n1" []) =
      ((some .success, some (.invalidIdentifier "name parameter required")), []) ∧
    StatusError.isNotFound (.invalidIdentifier "name parameter required") = false := by
  exact ⟨by decide, rfl⟩

/-- C5 amended: for every bind request whose storage-key derivation fails,
the bind operation fails with the key-derivation error itself — an
`InvalidIdentifier` domain error passed through the coordinator boundary
unchanged, which is not a `NotFound` — and the store is unchanged. -/
theorem key_failure_surfaces_key_error (s : Store) (scope : String) (b : Binding)
    (hkind : ¬(b.targetKind ≠ "" ∧ (b.targetKind ≠ "Node" ∧ b.targetKind ≠ "Minion")))
    (hname : b.targetName ≠ "")
    (hbad : b.name = "" ∨ b.name.data.contains '/' = true) :
    ∃ r, BindingREST.Create s scope b = ((some .success, some (.invalidIdentifier r)), s) ∧
      StatusError.isNotFound (.invalidIdentifier r) = false := by
  by_cases hnm : b.name = ""
  · refine ⟨"name parameter required", ?_, rfl⟩
    rw [BindingREST.Create, if_neg hkind, if_neg hname]
    simp [assignPod, setPodHostAndAnnotations, recordKey, hnm, translateAssignErr,
      interpretGetError, interpretUpdateError]
  · have hsl : b.name.data.contains '/' = true := hbad.resolve_left hnm
    have hmem : '/' ∈ b.name.data := by simpa using hsl
    refine ⟨"name parameter invalid", ?_, rfl⟩
    rw [BindingREST.Create, if_neg hkind, if_neg hname]
    simp [assignPod, setPodHostAndAnnotations, recordKey, hnm, hsl, hmem, translateAssignErr,
      interpretGetError, interpretUpdateError]

/-- C5 amended witness: binding a pod named by the empty string fails with
the `InvalidIdentifier` key error, not `NotFound`. -/
theorem key_failure_surfaces_key_error_witness :
    ("" : String) = "" ∧
    ∃ r, BindingREST.Create [] "ns" (Binding.mk "" "Node" "n1" []) =
      ((some .success, some (.invalidIdentifier r)), []) ∧
      StatusError.isNotFound (.invalidIdentifier r) = false :=
  ⟨rfl, key_failure_surfaces_key_error [] "ns" (Binding.mk "" "Node" "n1" [])
    (by decide) (by decide) (Or.inl rfl)⟩

/-- C6: failing binds are translated at the coordinator boundary: a raw
store not-found becomes `NotFound`; a raw store update conflict becomes
`Conflict`; any other error that is not already a recognized domain error is
wrapped as a `Conflict` carrying its message; a recognized domain error
passes through unchanged; and the coordinator's own already-assigned
rejection is a plain error whose message contains the assigned hosts, so its
wrapped `Conflict` carries a human-readable reason naming the assigned
host. -/
theorem bind_error_translation (pid m : String) (e : BindErr) (se : StatusError) (p : Pod)
    (anns : List (String × String))
    (hraw : e.isStatus = false)
    (hnnf : e ≠ .storeNotFound)
    (hntf : e ≠ .storeTestFailed)
    (htaken : p.specHost ≠ "" ∨ p.statusHost ≠ "") :
    translateAssignErr .storeNotFound pid = .notFound "pod" pid ∧
    translateAssignErr .storeTestFailed pid = .conflict "pod" pid "compare failed" ∧
    (∃ cmsg, translateAssignErr e pid = .conflict "binding" pid cmsg) ∧
    translateAssignErr (.status se) pid = se ∧
    setHostFn "" m anns p = .error (.raw (rejectMsg p)) ∧
    translateAssignErr (.raw (rejectMsg p)) pid = .conflict "binding" pid (rejectMsg p) ∧
    (∃ pre mid post, rejectMsg p = pre ++ p.specHost ++ mid ++ p.statusHost ++ post) := by
  refine ⟨rfl, rfl, ?_, rfl, ?_, rfl, ?_⟩
  · cases e with
    | storeNotFound => exact absurd rfl hnnf
    | storeTestFailed => exact absurd rfl hntf
    | storeTimeout => exact ⟨"request timed out", rfl⟩
    | raw msg => exact ⟨msg, rfl⟩
    | status se2 => simp [BindErr.isStatus] at hraw
  · rw [setHostFn, if_pos htaken]
  · exact ⟨"pod " ++ p.name ++ " is already assigned to host \"", "\" or \"", "\"", rfl⟩

/-- C6 witness: the translation evaluated at concrete errors and at a pod
assigned to host `n1`. -/
theorem bind_error_translation_witness :
    translateAssignErr .storeNotFound "p1" = .notFound "pod" "p1" ∧
    translateAssignErr .storeTestFailed "p1" = .conflict "pod" "p1" "compare failed" ∧
    (∃ cmsg, translateAssignErr .storeTimeout "p1" = .conflict "binding" "p1" cmsg) ∧
    translateAssignErr (.status (.notFound "x" "y")) "p1" = .notFound "x" "y" ∧
    setHostFn "" "n2" [] (Pod.mk "p1" "n1" "n1" none) =
      .error (.raw (rejectMsg (Pod.mk "p1" "n1" "n1" none))) ∧
    translateAssignErr (.raw (rejectMsg (Pod.mk "p1" "n1" "n1" none))) "p1" =
      .conflict "binding" "p1" (rejectMsg (Pod.mk "p1" "n1" "n1" none)) ∧
    (∃ pre mid post, rejectMsg (Pod.mk "p1" "n1" "n1" none) =
      pre ++ "n1" ++ mid ++ "n1" ++ post) :=
  bind_error_translation "p1" "n2" .storeTimeout (.notFound "x" "y")
    (Pod.mk "p1" "n1" "n1" none) [] rfl (by decide) (by decide) (Or.inl (by decide))

/-- C7 counterexample: a timed-out store call — neither a store not-found,
nor an update conflict, nor the already-assigned rejection — is reported as
`Conflict`, not propagated unmapped. -/
theorem timeout_reported_as_conflict_cex :
    translateAssignErr .storeTimeout "p1" = .conflict "binding" "p1" "request timed out" ∧
    StatusError.isConflict (translateAssignErr .storeTimeout "p1") = true :=
  ⟨rfl, rfl⟩

/-- C7 amended: a transient or infrastructure store error, not being a
recognized domain error, is wrapped as `Conflict` at the coordinator
boundary rather than propagated unmapped. -/
theorem transient_error_wrapped_as_conflict (pid : String) (e : BindErr)
    (hraw : e.isStatus = false)
    (hnnf : e ≠ .storeNotFound)
    (hntf : e ≠ .storeTestFailed) :
    ∃ cmsg, translateAssignErr e pid = .conflict "binding" pid cmsg ∧
      StatusError.isConflict (translateAssignErr e pid) = true := by
  cases e with
  | storeNotFound => exact absurd rfl hnnf
  | storeTestFailed => exact absurd rfl hntf
  | storeTimeout => exact ⟨"request timed out", rfl, rfl⟩
  | raw msg => exact ⟨msg, rfl, rfl⟩
  | status se => simp [BindErr.isStatus] at hraw

/-- C7 amended witness: the timeout error evaluated concretely. -/
theorem transient_error_wrapped_as_conflict_witness :
    BindErr.isStatus .storeTimeout = false ∧
    ∃ cmsg, translateAssignErr .storeTimeout "p1" = .conflict "binding" "p1" cmsg ∧
      StatusError.isConflict (translateAssignErr .storeTimeout "p1") = true :=
  ⟨rfl, transient_error_wrapped_as_conflict "p1" .storeTimeout rfl (by decide) (by decide)⟩

/-- C8 counterexample: a bind against an already-assigned record returns
both the success-status object and a non-nil conflict error from the same
call. -/
theorem create_returns_object_and_error_cex :
    (BindingREST.Create [("ns/p1", Pod.mk "p1" "n1" "n1" none)] "ns"
        (Binding.mk "p1" "" "n2" [])).1.1 = some CreateResult.success ∧
    (BindingREST.Create [("ns/p1", Pod.mk "p1" "n1" "n1" none)] "ns"
        (Binding.mk "p1" "" "n2" [])).1.2 ≠ none := by
  decide

/-- C8 amended: for every request passing validation, `Create` returns the
success-status object unconditionally — also when the assignment fails and a
non-nil error is returned alongside it; only validation failures return no
object. -/
theorem create_always_success_object (s : Store) (scope : String) (b : Binding)
    (hkind : ¬(b.targetKind ≠ "" ∧ (b.targetKind ≠ "Node" ∧ b.targetKind ≠ "Minion")))
    (hname : b.targetName ≠ "") :
    (BindingREST.Create s scope b).1.1 = some CreateResult.success := by
  rw [BindingREST.Create, if_neg hkind, if_neg hname]

/-- C8 amended witness: evaluated on a failing assignment. -/
theorem create_always_success_object_witness :
    (BindingREST.Create [("ns/p1", Pod.mk "p1" "n1" "n1" none)] "ns"
        (Binding.mk "p1" "" "n2" [])).1.1 = some CreateResult.success :=
  create_always_success_object [("ns/p1", Pod.mk "p1" "n1" "n1" none)] "ns"
    (Binding.mk "p1" "" "n2" []) (by decide) (by decide)

/-- C9: a status-surface update whose payload also modifies spec fields
stores a record whose spec fields come from the pre-existing record while
its status fields come from the payload. -/
theorem status_update_preserves_spec (s : Store) (scope k : String) (old payload : Pod)
    (hkey : recordKey scope payload.name = .ok k)
    (hlook : storeLookup s k = some old)
    (hmod : payload.specHost ≠ old.specHost) :
    StatusREST.Update s scope payload =
      (.ok (statusPrepareForUpdate old payload),
       storeInsert s k (statusPrepareForUpdate old payload)) ∧
    (statusPrepareForUpdate old payload).specHost = old.specHost ∧
    (statusPrepareForUpdate old payload).statusHost = payload.statusHost ∧
    storeLookup (storeInsert s k (statusPrepareForUpdate old payload)) k =
      some (statusPrepareForUpdate old payload) := by
  refine ⟨?_, rfl, rfl, storeLookup_insert s k (statusPrepareForUpdate old payload)⟩
  simp only [StatusREST.Update, hkey, hlook]

/-- C9 witness: a payload that changes the spec host from `n1` to `OTHER`
leaves the stored spec host at `n1` while adopting the payload status
host. -/
theorem status_update_preserves_spec_witness :
    Pod.specHost (Pod.mk "p1" "OTHER" "s2" none) ≠
      Pod.specHost (Pod.mk "p1" "n1" "s1" (some [])) ∧
    StatusREST.Update [("ns/p1", Pod.mk "p1" "n1" "s1" (some []))] "ns"
        (Pod.mk "p1" "OTHER" "s2" none) =
      (.ok (statusPrepareForUpdate (Pod.mk "p1" "n1" "s1" (some []))
         (Pod.mk "p1" "OTHER" "s2" none)),
       storeInsert [("ns/p1", Pod.mk "p1" "n1" "s1" (some []))] "ns/p1"
         (statusPrepareForUpdate (Pod.mk "p1" "n1" "s1" (some []))
           (Pod.mk "p1" "OTHER" "s2" none))) ∧
    (statusPrepareForUpdate (Pod.mk "p1" "n1" "s1" (some []))
      (Pod.mk "p1" "OTHER" "s2" none)).specHost = "n1" ∧
    (statusPrepareForUpdate (Pod.mk "p1" "n1" "s1" (some []))
      (Pod.mk "p1" "OTHER" "s2" none)).statusHost = "s2" := by
  have h := status_update_preserves_spec [("ns/p1", Pod.mk "p1" "n1" "s1" (some []))]
    "ns" "ns/p1" (Pod.mk "p1" "n1" "s1" (some [])) (Pod.mk "p1" "OTHER" "s2" none)
    (by decide) (by decide) (by decide)
  exact ⟨by decide, h.1, h.2.1, h.2.2.1⟩

/-- C10: a record whose annotation mapping is nil accepts a valid bind with
a non-empty annotation map without error: the mutation function initializes
an empty map before merging, and the stored annotations are exactly the
request's annotations. -/
theorem bind_initializes_nil_annotations (s : Store) (scope k : String) (b : Binding) (p : Pod)
    (hkind : ¬(b.targetKind ≠ "" ∧ (b.targetKind ≠ "Node" ∧ b.targetKind ≠ "Minion")))
    (hname : b.targetName ≠ "")
    (hkey : recordKey scope b.name = .ok k)
    (hlook : storeLookup s k = some p)
    (hfree : p.specHost = "" ∧ p.statusHost = "")
    (hnil : p.annotations = none)
    (hnd : (b.annotations.map Prod.fst).Nodup) :
    BindingREST.Create s scope b = ((some .success, none), storeInsert s k (boundPod p b)) ∧
    (boundPod p b).annotations = some (mergeAnnotations [] b.annotations) ∧
    ∀ k2, mapLookup (mergeAnnotations [] b.annotations) k2 = mapLookup b.annotations k2 := by
  refine ⟨Create_unassigned s scope k b p hkind hname hkey hlook hfree, ?_, ?_⟩
  · simp [boundPod, hnil]
  · intro k2
    cases h : mapLookup b.annotations k2 with
    | none => rw [mapLookup_merge_of_none _ _ _ h]; rfl
    | some v => rw [mapLookup_merge_of_some _ _ _ _ hnd h]

/-- C10 witness: binding with annotations `a=1` onto a record with a nil
annotation map succeeds and stores exactly `a=1`. -/
theorem bind_initializes_nil_annotations_witness :
    Pod.annotations (Pod.mk "p1" "" "" none) = none ∧
    BindingREST.Create [("ns/p1", Pod.mk "p1" "" "" none)] "ns"
        (Binding.mk "p1" "Minion" "n1" [("a", "1")]) =
      ((some .success, none),
       storeInsert [("ns/p1", Pod.mk "p1" "" "" none)] "ns/p1"
         (boundPod (Pod.mk "p1" "" "" none) (Binding.mk "p1" "Minion" "n1" [("a", "1")]))) ∧
    (boundPod (Pod.mk "p1" "" "" none) (Binding.mk "p1" "Minion" "n1" [("a", "1")])).annotations =
      some (mergeAnnotations [] [("a", "1")]) ∧
    mapLookup (mergeAnnotations [] [("a", "1")]) "a" = mapLookup [("a", "1")] "a" := by
  have h := bind_initializes_nil_annotations [("ns/p1", Pod.mk "p1" "" "" none)] "ns" "ns/p1"
    (Binding.mk "p1" "Minion" "n1" [("a", "1")]) (Pod.mk "p1" "" "" none)
    (by decide) (by decide) (by decide) (by decide) (by decide) rfl (by decide)
  exact ⟨rfl, h.1, h.2.1, h.2.2 "a"⟩
